import Mathlib

/-!
Verification of the blind-judge room lifecycle backend.

The development shallowly embeds the room service, the room repository and
the AI comparison service (`roomService.ts`, `roomRepository.ts`,
`aiService.ts`, `aiController.ts`).  Persistence is modelled as an explicit
store threaded through the operations; every repository call is translated
as a first-match read or first-match update on the stored lists, mirroring
Mongoose `findOne` / `save`.  The OpenAI gateway is an external
collaborator and enters as an oracle argument (`Option String`: `some`
text on success, `none` on failure); timestamps enter as a `now`
parameter.
-/

set_option maxRecDepth 4000

namespace BlindJudge

/-- Message roles of a chat session (`role ∈ \x7buser, assistant\x7d`). -/
inductive Role where
  | user
  | assistant
deriving DecidableEq

/-- A chat message as stored in a chat session document. -/
structure Message where
  role : Role
  content : String
  timestamp : Nat
deriving DecidableEq

/-- A participant entry of a room document (`IRoom.participants[i]`). -/
structure Participant where
  userId : String
  username : String
  hasSubmitted : Bool
deriving DecidableEq

/-- A conclusion entry of a room document (`IRoom.conclusions[i]`). -/
structure Conclusion where
  userId : String
  conclusion : String
  timestamp : Nat
deriving DecidableEq

/-- Room status enumeration (`"active" | "comparing" | "completed"`). -/
inductive RoomStatus where
  | active
  | comparing
  | completed
deriving DecidableEq

/-- A room document (`IRoom`). -/
structure Room where
  id : String
  password : String
  guidingQuestion : String
  created : Nat
  participants : List Participant
  conclusions : List Conclusion
  comparisonChatId : Option String
  finalVerdict : Option String
  status : RoomStatus
deriving DecidableEq

/-- A chat session document, keyed by the composite (roomId, userId). -/
structure ChatSess where
  id : String
  roomId : String
  userId : String
  messages : List Message
  sessActive : Bool
  created : Nat
deriving DecidableEq

/-- A user document, as consumed by the room service (id and username). -/
structure User where
  id : String
  username : String
deriving DecidableEq

/-- The persistent store: room, chat-session and user collections. -/
structure Store where
  rooms : List Room
  sessions : List ChatSess
  users : List User
deriving DecidableEq

/-- `bcrypt.hash` modelled as an injective deterministic function. -/
def bcryptHash (plain : String) : String := "bcrypt$" ++ plain

/-- `bcrypt.compare plain hash`: does the hash come from this plaintext? -/
def bcryptCompare (plain hash : String) : Bool := hash == bcryptHash plain

/-! ## Repository layer (`RoomRepository`) -/

/-- `Room.findOne(\x7bid: roomId\x7d)`: first room whose id matches. -/
def findRoom : List Room → String → Option Room
  | [], _ => none
  | r :: rs, roomId => if r.id = roomId then some r else findRoom rs roomId

/-- `User.findById`: first user whose id matches. -/
def findUser : List User → String → Option User
  | [], _ => none
  | u :: us, userId => if u.id = userId then some u else findUser us userId

/-- `ChatSession.findOne(\x7broomId, userId\x7d)`: first composite-key match. -/
def findSess : List ChatSess → String → String → Option ChatSess
  | [], _, _ => none
  | c :: cs, roomId, userId =>
      if c.roomId = roomId ∧ c.userId = userId then some c
      else findSess cs roomId userId

/-- `findOne` + mutate + `save`: rewrite the first room whose id matches. -/
def updFirstRoom : List Room → String → (Room → Room) → List Room
  | [], _, _ => []
  | r :: rs, roomId, f =>
      if r.id = roomId then f r :: rs else r :: updFirstRoom rs roomId f

/-- Rewrite the first chat session whose composite key matches. -/
def updFirstSess : List ChatSess → String → String → (ChatSess → ChatSess) → List ChatSess
  | [], _, _, _ => []
  | c :: cs, roomId, userId, f =>
      if c.roomId = roomId ∧ c.userId = userId then f c :: cs
      else c :: updFirstSess cs roomId userId f

/-- `participants.find(p => p.userId === userId)`. -/
def findPart : List Participant → String → Option Participant
  | [], _ => none
  | p :: ps, userId => if p.userId = userId then some p else findPart ps userId

/-- The repository's `updateParticipantStatus` mutation: it finds the first
participant with the given user id and sets that participant's flag. -/
def setSubmittedFirst : List Participant → String → Bool → List Participant
  | [], _, _ => []
  | p :: ps, userId, b =>
      if p.userId = userId then { p with hasSubmitted := b } :: ps
      else p :: setSubmittedFirst ps userId b

/-- `RoomRepository.addParticipant`: push the participant onto the first
matching room unless a participant with that user id is already present. -/
def addParticipant (s : Store) (roomId : String) (p : Participant) : Store :=
  { s with rooms := updFirstRoom s.rooms roomId (fun r =>
      if r.participants.any (fun q => q.userId == p.userId) then r
      else { r with participants := r.participants ++ [p] }) }

/-- `RoomRepository.addConclusion`: push the conclusion onto the room. -/
def addConclusion (s : Store) (roomId : String) (c : Conclusion) : Store :=
  { s with rooms := updFirstRoom s.rooms roomId (fun r =>
      { r with conclusions := r.conclusions ++ [c] }) }

/-- `RoomRepository.updateParticipantStatus`. -/
def updateParticipantStatus (s : Store) (roomId userId : String) (b : Bool) : Store :=
  { s with rooms := updFirstRoom s.rooms roomId (fun r =>
      { r with participants := setSubmittedFirst r.participants userId b }) }

/-- The partial update object passed to `RoomRepository.updateRoom`
(only the fields the services actually update are ever provided). -/
structure RoomUpdate where
  status : Option RoomStatus
  finalVerdict : Option String
deriving DecidableEq

/-- Apply the provided fields of a partial update to a room document. -/
def applyRoomUpdate (r : Room) (u : RoomUpdate) : Room :=
  { r with
      status := u.status.getD r.status
      finalVerdict := match u.finalVerdict with
        | some v => some v
        | none => r.finalVerdict }

/-- `RoomRepository.updateRoom`: field-wise update of the first match. -/
def updateRoom (s : Store) (roomId : String) (u : RoomUpdate) : Store :=
  { s with rooms := updFirstRoom s.rooms roomId (fun r => applyRoomUpdate r u) }

/-- `RoomRepository.addMessageToChatSession`. -/
def addMessageToChatSession (s : Store) (roomId userId : String) (m : Message) : Store :=
  { s with sessions := updFirstSess s.sessions roomId userId (fun c =>
      { c with messages := c.messages ++ [m] }) }

/-- `RoomRepository.createChatSession`: save a fresh session document. -/
def createChatSession (s : Store) (c : ChatSess) : Store :=
  { s with sessions := s.sessions ++ [c] }

/-! ## Room service (`RoomService`) -/

/-- Result of `RoomService.createRoom`. -/
structure CreateResult where
  success : Bool
  roomId : Option String
  message : String
deriving DecidableEq

/-- Outcome of an operation: its returned value plus the updated store. -/
structure CreateOutcome where
  result : CreateResult
  store : Store
deriving DecidableEq

/-- `RoomService.createRoom`.  The fresh uuid is the `newId` argument and
`Date.now` is the `now` argument.  The room collection has a unique index
on `id`, so persisting a duplicate id throws, which the service's catch
block turns into the generic failure result. -/
def createRoom (s : Store) (userId guidingQuestion password newId : String)
    (now : Nat) : CreateOutcome :=
  match findUser s.users userId with
  | none => ⟨⟨false, none, "User not found"⟩, s⟩
  | some _ =>
      match findRoom s.rooms newId with
      | some _ => ⟨⟨false, none, "Error creating room"⟩, s⟩
      | none =>
          let room : Room :=
            { id := newId
              password := bcryptHash password
              guidingQuestion := guidingQuestion
              created := now
              participants := [⟨userId, ((findUser s.users userId).map User.username).getD "", false⟩]
              conclusions := []
              comparisonChatId := none
              finalVerdict := none
              status := RoomStatus.active }
          ⟨⟨true, some newId, "Room created successfully"⟩,
           { s with rooms := s.rooms ++ [room] }⟩

/-- Result of `RoomService.joinRoom`. -/
structure JoinResult where
  success : Bool
  message : String
deriving DecidableEq

/-- Returned value plus updated store for `joinRoom`. -/
structure JoinOutcome where
  result : JoinResult
  store : Store
deriving DecidableEq

/-- `RoomService.joinRoom`, translated check by check in source order:
room lookup, user lookup, password comparison, already-a-participant,
capacity, then `addParticipant`. -/
def joinRoom (s : Store) (userId roomId password : String) : JoinOutcome :=
  match findRoom s.rooms roomId with
  | none => ⟨⟨false, "Room not found"⟩, s⟩
  | some room =>
      match findUser s.users userId with
      | none => ⟨⟨false, "User not found"⟩, s⟩
      | some user =>
          if bcryptCompare password room.password then
            if room.participants.any (fun p => p.userId == userId) then
              ⟨⟨false, "You are already in this room"⟩, s⟩
            else if 2 ≤ room.participants.length then
              ⟨⟨false, "Room is full"⟩, s⟩
            else
              ⟨⟨true, "Successfully joined room"⟩,
               addParticipant s roomId ⟨userId, user.username, false⟩⟩
          else
            ⟨⟨false, "Invalid password"⟩, s⟩

/-- `RoomService.getChatSession`: find the session for the composite key,
creating it (fresh id `sid`, empty messages, status active) when absent.
Returns the session value the service goes on to work with, plus the
store. -/
def getChatSession (s : Store) (roomId userId sid : String) (now : Nat) :
    ChatSess × Store :=
  match findSess s.sessions roomId userId with
  | some c => (c, s)
  | none =>
      let c : ChatSess :=
        { id := sid, roomId := roomId, userId := userId
          messages := [], sessActive := true, created := now }
      (c, createChatSession s c)

/-- The payload the room service hands to the AI gateway
(`openaiService.sendMessage(apiMessageContent, apiMessages)`): the message
content and the role/content history. -/
structure GatewayRequest where
  message : String
  history : List (Role × String)
deriving DecidableEq

/-- The augmented first-turn prompt built by `RoomService.sendMessage`. -/
def augmentedPrompt (guidingQuestion message : String) : String :=
  "We are discussing the following question: \"" ++ guidingQuestion ++
    "\"\n\nUser's message: " ++ message

/-- Result of `RoomService.sendMessage`. -/
structure SendResult where
  success : Bool
  response : Option String
  messages : Option (List Message)
  message : Option String
deriving DecidableEq

/-- Returned value, updated store, and the gateway request actually
transmitted (`none` when the gateway was never invoked). -/
structure SendOutcome where
  result : SendResult
  store : Store
  sent : Option GatewayRequest
deriving DecidableEq

/-- `RoomService.sendMessage`.  The AI gateway is the oracle `gw`
(`some reply` on success, `none` on failure); `sid` is the uuid used if a
session must be created; `now` stands for `new Date()`. -/
def sendMessage (s : Store) (userId roomId text sid : String)
    (gw : Option String) (now : Nat) : SendOutcome :=
  match findRoom s.rooms roomId with
  | none => ⟨⟨false, none, none, some "Room not found"⟩, s, none⟩
  | some room =>
      let (chatSession, s1) := getChatSession s roomId userId sid now
      let userMessage : Message := ⟨Role.user, text, now⟩
      let s2 := addMessageToChatSession s1 roomId userId userMessage
      let msgs := chatSession.messages ++ [userMessage]
      let isFirstMessage := msgs.length == 1
      let apiMessageContent :=
        if isFirstMessage && !(room.guidingQuestion == "") then
          augmentedPrompt room.guidingQuestion text
        else text
      let apiMessages := msgs.enum.map (fun mi =>
        if mi.1 == msgs.length - 1 && isFirstMessage then
          (mi.2.role, apiMessageContent)
        else (mi.2.role, mi.2.content))
      let req : GatewayRequest := ⟨apiMessageContent, apiMessages⟩
      match gw with
      | none =>
          ⟨⟨false, none, none, some "Error processing message"⟩, s2, some req⟩
      | some reply =>
          let assistantMessage : Message := ⟨Role.assistant, reply, now⟩
          let s3 := addMessageToChatSession s2 roomId userId assistantMessage
          ⟨⟨true, some reply, some (msgs ++ [assistantMessage]), none⟩, s3, some req⟩

/-- Result of `RoomService.submitConclusion`. -/
structure SubmitResult where
  success : Bool
  message : String
  isComplete : Option Bool
deriving DecidableEq

/-- Returned value plus updated store for `submitConclusion`. -/
structure SubmitOutcome where
  result : SubmitResult
  store : Store
deriving DecidableEq

/-- The guard phase of `RoomService.submitConclusion`: room lookup,
participant lookup, duplicate-submission check.  `some e` aborts with the
failure result `e`; `none` proceeds to the write phases. -/
def submitCheck (s : Store) (userId roomId : String) : Option SubmitResult :=
  match findRoom s.rooms roomId with
  | none => some ⟨false, "Room not found", none⟩
  | some room =>
      match findPart room.participants userId with
      | none => some ⟨false, "You are not a participant in this room", none⟩
      | some participant =>
          if participant.hasSubmitted then
            some ⟨false, "You have already submitted a conclusion", none⟩
          else none

/-- The final phase of `RoomService.submitConclusion`: re-read the room,
test whether every (of at least two) participant has submitted, update the
status to `comparing` when so, and report `isComplete`. -/
def submitFinish (s : Store) (roomId : String) : SubmitOutcome :=
  match findRoom s.rooms roomId with
  | none => ⟨⟨false, "Room not found after update", none⟩, s⟩
  | some updatedRoom =>
      let hasMultipleParticipants := 2 ≤ updatedRoom.participants.length
      let allSubmitted := updatedRoom.participants.all (fun p => p.hasSubmitted)
      let isComplete := hasMultipleParticipants ∧ allSubmitted = true
      let s3 := if hasMultipleParticipants ∧ allSubmitted = true then
          updateRoom s roomId ⟨some RoomStatus.comparing, none⟩
        else s
      ⟨⟨true, "Conclusion submitted successfully", some (decide isComplete)⟩, s3⟩

/-- `RoomService.submitConclusion`: guards, then `addConclusion`,
`updateParticipantStatus`, and the completeness re-check. -/
def submitConclusion (s : Store) (userId roomId text : String) (now : Nat) :
    SubmitOutcome :=
  match submitCheck s userId roomId with
  | some e => ⟨e, s⟩
  | none =>
      let s1 := addConclusion s roomId ⟨userId, text, now⟩
      let s2 := updateParticipantStatus s1 roomId userId true
      submitFinish s2 roomId

/-- The read-only projection returned by `RoomService.getRoomStatus`. -/
structure StatusProjection where
  participantCount : Nat
  conclusionCount : Nat
  roomStatus : RoomStatus
  hasSubmitted : Bool
  finalVerdict : Option String
deriving DecidableEq

/-- Result of `RoomService.getRoomStatus`. -/
structure StatusResult where
  success : Bool
  status : Option StatusProjection
  message : Option String
deriving DecidableEq

/-- `RoomService.getRoomStatus`: read-only; fails on a missing room or a
non-participant caller. -/
def getRoomStatus (s : Store) (userId roomId : String) : StatusResult :=
  match findRoom s.rooms roomId with
  | none => ⟨false, none, some "Room not found"⟩
  | some room =>
      match findPart room.participants userId with
      | none => ⟨false, none, some "You are not a participant in this room"⟩
      | some participant =>
          ⟨true,
           some ⟨room.participants.length, room.conclusions.length,
                 room.status, participant.hasSubmitted, room.finalVerdict⟩,
           none⟩

/-! ## AI comparison service (`AiService`) -/

/-- Result of `AiService.compareRoomConclusions`. -/
structure CompareResult where
  success : Bool
  comparison : Option String
  error : Option String
deriving DecidableEq

/-- Returned value, updated store, and whether the AI gateway
(`openaiService.compareConclusions`) was invoked. -/
structure CompareOutcome where
  result : CompareResult
  store : Store
  gatewayCalled : Bool
deriving DecidableEq

/-- `AiService.compareRoomConclusions`: status guard, conclusion-count
guard, participant resolution, gateway call, then the verdict write
(`updateRoom` with `finalVerdict` and status `completed`). -/
def compareRoomConclusions (s : Store) (roomId : String)
    (gw : Option String) : CompareOutcome :=
  match findRoom s.rooms roomId with
  | none => ⟨⟨false, none, some "Room not found"⟩, s, false⟩
  | some room =>
      if room.status ≠ RoomStatus.comparing then
        ⟨⟨false, none,
          some "Room is not ready for comparison. Both participants must submit their conclusions first."⟩,
         s, false⟩
      else if room.conclusions.length ≠ 2 then
        ⟨⟨false, none, some "Invalid number of conclusions for comparison"⟩, s, false⟩
      else
        match room.conclusions with
        | [conclusion1, conclusion2] =>
            match findPart room.participants conclusion1.userId,
                  findPart room.participants conclusion2.userId with
            | some _, some _ =>
                (match gw with
                 | none =>
                     ⟨⟨false, none, some "Failed to generate comparison"⟩, s, true⟩
                 | some verdict =>
                     ⟨⟨true, some verdict, none⟩,
                      updateRoom s roomId ⟨some RoomStatus.completed, some verdict⟩,
                      true⟩)
            | _, _ =>
                ⟨⟨false, none, some "Could not find participants for conclusions"⟩,
                 s, false⟩
        | _ => ⟨⟨false, none, some "Invalid number of conclusions for comparison"⟩, s, false⟩

/-- HTTP-level response of `AiController.compareRoomConclusions`. -/
structure CtrlOutcome where
  statusCode : Nat
  success : Bool
  body : Option String
  store : Store
deriving DecidableEq

/-- `AiController.compareRoomConclusions`: requires only that the request
carries an authenticated user id (`req.userId`), then delegates to the AI
service with the room id alone and maps failure messages to status
codes. -/
def compareRoomConclusionsCtrl (authUserId : Option String) (s : Store)
    (roomId : String) (gw : Option String) : CtrlOutcome :=
  match authUserId with
  | none => ⟨401, false, some "Unauthorized", s⟩
  | some _ =>
      let out := compareRoomConclusions s roomId gw
      if out.result.success then
        ⟨200, true, out.result.comparison, out.store⟩
      else
        let statusCode :=
          if out.result.error == some "Room not found" then 404
          else if out.result.error ==
              some "Room is not ready for comparison. Both participants must submit their conclusions first." ∨
            out.result.error == some "Invalid number of conclusions for comparison" ∨
            out.result.error == some "Could not find participants for conclusions" then 400
          else 500
        ⟨statusCode, false, out.result.error, out.store⟩

/-! ## Lemmas about the repository primitives -/

theorem findRoom_mem {rs : List Room} {roomId : String} {r : Room}
    (h : findRoom rs roomId = some r) : r ∈ rs := by
  induction rs with
  | nil => simp [findRoom] at h
  | cons x xs ih =>
      by_cases hx : x.id = roomId
      · simp [findRoom, hx] at h
        simp [h]
      · simp [findRoom, hx] at h
        exact List.mem_cons_of_mem x (ih h)

theorem findRoom_updFirstRoom_self (rs : List Room) (roomId : String)
    (f : Room → Room) (hf : ∀ r, (f r).id = r.id) :
    findRoom (updFirstRoom rs roomId f) roomId = (findRoom rs roomId).map f := by
  induction rs with
  | nil => rfl
  | cons x xs ih =>
      by_cases hx : x.id = roomId
      · have hfx : (f x).id = roomId := by rw [hf x, hx]
        simp [findRoom, updFirstRoom, hx, hfx]
      · simp [findRoom, updFirstRoom, hx, ih]

theorem findRoom_updFirstRoom_ne (rs : List Room) (roomId id : String)
    (f : Room → Room) (hf : ∀ r, (f r).id = r.id) (hne : id ≠ roomId) :
    findRoom (updFirstRoom rs roomId f) id = findRoom rs id := by
  induction rs with
  | nil => rfl
  | cons x xs ih =>
      by_cases hx : x.id = roomId
      · have hfx : (f x).id ≠ id := by
          rw [hf x, hx]
          exact fun h => hne h.symm
        have hxid : x.id ≠ id := by
          rw [hx]
          exact fun h => hne h.symm
        simp [findRoom, updFirstRoom, hx, hfx, hxid, Ne.symm hne]
      · by_cases hxI : x.id = id
        · simp [findRoom, updFirstRoom, hx, hxI, hne]
        · simp [findRoom, updFirstRoom, hx, hxI, ih]

theorem findRoom_append_some {rs : List Room} {id : String} {r : Room}
    (l : List Room) (h : findRoom rs id = some r) :
    findRoom (rs ++ l) id = some r := by
  induction rs with
  | nil => simp [findRoom] at h
  | cons x xs ih =>
      by_cases hx : x.id = id
      · simp [findRoom, hx] at h ⊢
        exact h
      · simp [findRoom, hx] at h ⊢
        exact ih h

theorem mem_updFirstRoom {rs : List Room} {roomId : String} {f : Room → Room}
    {x : Room} (hx : x ∈ updFirstRoom rs roomId f) :
    x ∈ rs ∨ ∃ r, findRoom rs roomId = some r ∧ x = f r := by
  induction rs with
  | nil => simp [updFirstRoom] at hx
  | cons y ys ih =>
      by_cases hy : y.id = roomId
      · simp only [updFirstRoom, hy, if_true] at hx
        rcases List.mem_cons.mp hx with h | h
        · exact Or.inr ⟨y, by simp [findRoom, hy], h⟩
        · exact Or.inl (List.mem_cons_of_mem y h)
      · simp only [updFirstRoom, hy, if_false] at hx
        rcases List.mem_cons.mp hx with h | h
        · exact Or.inl (h ▸ List.mem_cons_self y ys)
        · rcases ih h with h' | ⟨r, hr, hxr⟩
          · exact Or.inl (List.mem_cons_of_mem y h')
          · exact Or.inr ⟨r, by simp [findRoom, hy, hr], hxr⟩

theorem findPart_mem {ps : List Participant} {userId : String} {p : Participant}
    (h : findPart ps userId = some p) : p ∈ ps := by
  induction ps with
  | nil => simp [findPart] at h
  | cons x xs ih =>
      by_cases hx : x.userId = userId
      · simp [findPart, hx] at h
        simp [h]
      · simp [findPart, hx] at h
        exact List.mem_cons_of_mem x (ih h)

theorem setSubmittedFirst_length (ps : List Participant) (userId : String)
    (b : Bool) : (setSubmittedFirst ps userId b).length = ps.length := by
  induction ps with
  | nil => rfl
  | cons x xs ih =>
      by_cases hx : x.userId = userId <;> simp [setSubmittedFirst, hx, ih]

theorem findPart_setSubmittedFirst_self (ps : List Participant) (userId : String)
    (b : Bool) :
    findPart (setSubmittedFirst ps userId b) userId =
      (findPart ps userId).map (fun p => { p with hasSubmitted := b }) := by
  induction ps with
  | nil => rfl
  | cons x xs ih =>
      by_cases hx : x.userId = userId
      · simp [setSubmittedFirst, findPart, hx]
      · simp [setSubmittedFirst, findPart, hx, ih]

theorem all_setSubmittedFirst_true {ps : List Participant} {userId : String}
    (h : ps.all (fun p => p.hasSubmitted) = true) :
    (setSubmittedFirst ps userId true).all (fun p => p.hasSubmitted) = true := by
  induction ps with
  | nil => rfl
  | cons x xs ih =>
      simp only [List.all_cons, Bool.and_eq_true] at h
      by_cases hx : x.userId = userId
      · simp [setSubmittedFirst, hx, h.2]
      · simp [setSubmittedFirst, hx, h.1, ih h.2]

theorem findSess_updFirstSess_self (cs : List ChatSess) (roomId userId : String)
    (f : ChatSess → ChatSess)
    (hf : ∀ c, (f c).roomId = c.roomId ∧ (f c).userId = c.userId) :
    findSess (updFirstSess cs roomId userId f) roomId userId =
      (findSess cs roomId userId).map f := by
  induction cs with
  | nil => rfl
  | cons x xs ih =>
      by_cases hx : x.roomId = roomId ∧ x.userId = userId
      · have hfx : (f x).roomId = roomId ∧ (f x).userId = userId := by
          rw [(hf x).1, (hf x).2]
          exact hx
        simp [findSess, updFirstSess, hx, hfx]
      · simp [findSess, updFirstSess, hx, ih]

theorem findSess_append_self {cs : List ChatSess} {roomId userId : String}
    {c : ChatSess} (h : findSess cs roomId userId = none)
    (hr : c.roomId = roomId) (hu : c.userId = userId) :
    findSess (cs ++ [c]) roomId userId = some c := by
  induction cs with
  | nil => simp [findSess, hr, hu]
  | cons x xs ih =>
      by_cases hx : x.roomId = roomId ∧ x.userId = userId
      · simp [findSess, hx] at h
      · simp [findSess, hx] at h ⊢
        exact ih h

/-- `sendMessage` never touches the room collection. -/
theorem sendMessage_rooms (s : Store) (userId roomId text sid : String)
    (gw : Option String) (now : Nat) :
    (sendMessage s userId roomId text sid gw now).store.rooms = s.rooms := by
  unfold sendMessage
  cases hroom : findRoom s.rooms roomId with
  | none => rfl
  | some room =>
      unfold getChatSession
      cases hsess : findSess s.sessions roomId userId with
      | some c =>
          cases gw with
          | none => rfl
          | some reply => rfl
      | none =>
          cases gw with
          | none => rfl
          | some reply => rfl

/-! ## Concrete fixtures used by witnesses -/

/-- Users known to the sample store. -/
def sampleUsers : List User := [⟨"uA", "Alice"⟩, ⟨"uB", "Bob"⟩, ⟨"uC", "Carol"⟩]

/-- The empty initial store with the sample users registered. -/
def store0 : Store := ⟨[], [], sampleUsers⟩

/-- Store after Alice created room r1. -/
def store1 : Store := (createRoom store0 "uA" "Is X good?" "pw1234" "r1" 0).store

/-- Store after Bob joined r1 with the correct password. -/
def store2 : Store := (joinRoom store1 "uB" "r1" "pw1234").store

/-- Store after Alice submitted her conclusion in r1. -/
def store3 : Store := (submitConclusion store2 "uA" "r1" "X is good because..." 5).store

/-- Store after Bob also submitted; r1 is now `comparing`. -/
def store4 : Store := (submitConclusion store3 "uB" "r1" "X is bad because..." 6).store

/-- Store after the comparison succeeded; r1 is now `completed`. -/
def store5 : Store := (compareRoomConclusions store4 "r1" (some "the verdict")).store

/-! ## C2: duplicate submission is rejected and mutates nothing -/

/-- C2: when the participant's `hasSubmitted` flag is already true,
`submitConclusion` fails with the Conflict-class error
"You have already submitted a conclusion" and returns the store unchanged,
so in particular the room's conclusions sequence keeps its length. -/
theorem submitConclusion_duplicate_conflict (s : Store)
    (userId roomId text : String) (now : Nat) (room : Room) (p : Participant)
    (hroom : findRoom s.rooms roomId = some room)
    (hp : findPart room.participants userId = some p)
    (hsub : p.hasSubmitted = true) :
    (submitConclusion s userId roomId text now).result.success = false ∧
    (submitConclusion s userId roomId text now).result.message =
      "You have already submitted a conclusion" ∧
    (submitConclusion s userId roomId text now).store = s := by
  unfold submitConclusion submitCheck
  rw [hroom]
  simp [hp, hsub]

/-- Witness for C2: Alice re-submitting after `store3` is rejected and the
store — hence the conclusions length — is untouched. -/
theorem submitConclusion_duplicate_conflict_witness :
    (submitConclusion store3 "uA" "r1" "again" 7).result.success = false ∧
    (submitConclusion store3 "uA" "r1" "again" 7).result.message =
      "You have already submitted a conclusion" ∧
    (submitConclusion store3 "uA" "r1" "again" 7).store = store3 :=
  submitConclusion_duplicate_conflict store3 "uA" "r1" "again" 7
    ((findRoom store3.rooms "r1").get (by decide))
    ((findPart ((findRoom store3.rooms "r1").get (by decide)).participants "uA").get (by decide))
    (by decide) (by decide) (by decide)

/-! ## C8: joinRoom failure taxonomy and success shape -/

/-- C8: `joinRoom` fails with the NotFound-class errors when the room or
user is missing, the Unauthorized-class error ("Invalid password") when
the password does not match the stored hash, the Conflict-class error
("You are already in this room") when the user is already a participant,
and the Capacity-class error ("Room is full") when the room already has
two participants; every failure leaves the store — hence the participants
sequence — unchanged, and on success exactly one new participant with
`hasSubmitted = false` is appended at the end of the sequence. -/
theorem joinRoom_spec (s : Store) (userId roomId password : String) :
    (findRoom s.rooms roomId = none →
      joinRoom s userId roomId password = ⟨⟨false, "Room not found"⟩, s⟩) ∧
    (∀ room, findRoom s.rooms roomId = some room →
      findUser s.users userId = none →
      joinRoom s userId roomId password = ⟨⟨false, "User not found"⟩, s⟩) ∧
    (∀ room, findRoom s.rooms roomId = some room →
      (∃ u, findUser s.users userId = some u) →
      bcryptCompare password room.password = false →
      joinRoom s userId roomId password = ⟨⟨false, "Invalid password"⟩, s⟩) ∧
    (∀ room, findRoom s.rooms roomId = some room →
      (∃ u, findUser s.users userId = some u) →
      bcryptCompare password room.password = true →
      room.participants.any (fun p => p.userId == userId) = true →
      joinRoom s userId roomId password = ⟨⟨false, "You are already in this room"⟩, s⟩) ∧
    (∀ room, findRoom s.rooms roomId = some room →
      (∃ u, findUser s.users userId = some u) →
      bcryptCompare password room.password = true →
      room.participants.any (fun p => p.userId == userId) = false →
      2 ≤ room.participants.length →
      joinRoom s userId roomId password = ⟨⟨false, "Room is full"⟩, s⟩) ∧
    (∀ room user, findRoom s.rooms roomId = some room →
      findUser s.users userId = some user →
      bcryptCompare password room.password = true →
      room.participants.any (fun p => p.userId == userId) = false →
      room.participants.length < 2 →
      (joinRoom s userId roomId password).result = ⟨true, "Successfully joined room"⟩ ∧
      ∃ room', findRoom (joinRoom s userId roomId password).store.rooms roomId = some room' ∧
        room'.participants = room.participants ++ [⟨userId, user.username, false⟩]) := by
  refine ⟨?_, ?_, ?_, ?_, ?_, ?_⟩
  · intro h
    unfold joinRoom
    rw [h]
  · intro room hroom huser
    unfold joinRoom
    rw [hroom, huser]
  · intro room hroom ⟨u, hu⟩ hpw
    unfold joinRoom
    rw [hroom, hu]
    simp [hpw]
  · intro room hroom ⟨u, hu⟩ hpw hin
    unfold joinRoom
    rw [hroom, hu]
    simp [hpw, hin]
  · intro room hroom ⟨u, hu⟩ hpw hin hfull
    unfold joinRoom
    rw [hroom, hu]
    simp [hpw, hin, hfull]
  · intro room user hroom huser hpw hin hlt
    have hnotfull : ¬ 2 ≤ room.participants.length := Nat.not_le.mpr hlt
    constructor
    · unfold joinRoom
      rw [hroom, huser]
      simp [hpw, hin, hnotfull]
    · have hstore : (joinRoom s userId roomId password).store =
          addParticipant s roomId ⟨userId, user.username, false⟩ := by
        unfold joinRoom
        rw [hroom, huser]
        simp [hpw, hin, hnotfull]
      rw [hstore]
      unfold addParticipant
      have hfind := findRoom_updFirstRoom_self s.rooms roomId
        (fun r => if r.participants.any (fun q =>
            q.userId == (⟨userId, user.username, false⟩ : Participant).userId) then r
          else { r with participants :=
            r.participants ++ [⟨userId, user.username, false⟩] })
        (fun r => by dsimp only; split <;> rfl)
      rw [hroom] at hfind
      refine ⟨_, hfind, ?_⟩
      simp [hin]

/-- Witness for C8: at `store1` (one-participant room r1) a join with the
wrong password fails Unauthorized leaving the store unchanged, and a join
with the correct password succeeds. -/
theorem joinRoom_spec_witness :
    joinRoom store1 "uB" "r1" "wrong" = ⟨⟨false, "Invalid password"⟩, store1⟩ ∧
    (joinRoom store1 "uB" "r1" "pw1234").result = ⟨true, "Successfully joined room"⟩ :=
  ⟨(joinRoom_spec store1 "uB" "r1" "wrong").2.2.1
      ⟨"r1", bcryptHash "pw1234", "Is X good?", 0, [⟨"uA", "Alice", false⟩], [],
        none, none, RoomStatus.active⟩
      (by decide) ⟨⟨"uB", "Bob"⟩, by decide⟩ (by decide),
   ((joinRoom_spec store1 "uB" "r1" "pw1234").2.2.2.2.2
      ⟨"r1", bcryptHash "pw1234", "Is X good?", 0, [⟨"uA", "Alice", false⟩], [],
        none, none, RoomStatus.active⟩
      ⟨"uB", "Bob"⟩ (by decide) (by decide) (by decide) (by decide) (by decide)).1⟩

/-! ## C1: successful conclusion submission -/

/-- C1: a successful `submitConclusion` (room found, caller a participant,
flag still false, room `active`) appends the Conclusion record
`\x7buserId, text, timestamp\x7d`, sets that participant's flag true, moves the
status from `active` to `comparing` exactly when the room then has at
least 2 participants all of whose flags are true, and returns success with
`isComplete` equal to that same condition. -/
theorem submitConclusion_success_spec (s : Store) (userId roomId text : String)
    (now : Nat) (room : Room) (p : Participant)
    (hroom : findRoom s.rooms roomId = some room)
    (hp : findPart room.participants userId = some p)
    (hflag : p.hasSubmitted = false)
    (hactive : room.status = RoomStatus.active) :
    ∃ room',
      findRoom (submitConclusion s userId roomId text now).store.rooms roomId = some room' ∧
      room'.conclusions = room.conclusions ++ [⟨userId, text, now⟩] ∧
      (findPart room'.participants userId).map Participant.hasSubmitted = some true ∧
      (room'.status = RoomStatus.comparing ↔
        (2 ≤ room'.participants.length ∧
          room'.participants.all (fun q => q.hasSubmitted) = true)) ∧
      (submitConclusion s userId roomId text now).result =
        ⟨true, "Conclusion submitted successfully",
          some (decide (2 ≤ room'.participants.length ∧
            room'.participants.all (fun q => q.hasSubmitted) = true))⟩ := by
  have hcheck : submitCheck s userId roomId = none := by
    unfold submitCheck
    rw [hroom]
    simp [hp, hflag]
  have heq : submitConclusion s userId roomId text now =
      submitFinish (updateParticipantStatus
        (addConclusion s roomId ⟨userId, text, now⟩) roomId userId true) roomId := by
    unfold submitConclusion
    rw [hcheck]
  set room1 : Room := { room with conclusions := room.conclusions ++ [⟨userId, text, now⟩] } with hroom1
  have h1 : findRoom (addConclusion s roomId ⟨userId, text, now⟩).rooms roomId = some room1 := by
    unfold addConclusion
    have := findRoom_updFirstRoom_self s.rooms roomId
      (fun r => { r with conclusions := r.conclusions ++ [⟨userId, text, now⟩] })
      (fun r => rfl)
    rw [hroom] at this
    exact this
  set room2 : Room := { room1 with participants := setSubmittedFirst room1.participants userId true } with hroom2
  have h2 : findRoom (updateParticipantStatus
      (addConclusion s roomId ⟨userId, text, now⟩) roomId userId true).rooms roomId = some room2 := by
    unfold updateParticipantStatus
    have := findRoom_updFirstRoom_self
      (addConclusion s roomId ⟨userId, text, now⟩).rooms roomId
      (fun r => { r with participants := setSubmittedFirst r.participants userId true })
      (fun r => rfl)
    rw [h1] at this
    exact this
  have hpart2 : (findPart room2.participants userId).map Participant.hasSubmitted = some true := by
    rw [hroom2]
    dsimp only
    rw [findPart_setSubmittedFirst_self, hp]
    rfl
  by_cases hcond : 2 ≤ room2.participants.length ∧
      room2.participants.all (fun q => q.hasSubmitted) = true
  · have hfin : submitFinish (updateParticipantStatus
        (addConclusion s roomId ⟨userId, text, now⟩) roomId userId true) roomId =
        ⟨⟨true, "Conclusion submitted successfully", some (decide
            (2 ≤ room2.participants.length ∧
              room2.participants.all (fun q => q.hasSubmitted) = true))⟩,
         updateRoom (updateParticipantStatus
            (addConclusion s roomId ⟨userId, text, now⟩) roomId userId true) roomId
           ⟨some RoomStatus.comparing, none⟩⟩ := by
      unfold submitFinish
      rw [h2]
      simp [hcond]
    set room3 : Room := applyRoomUpdate room2 ⟨some RoomStatus.comparing, none⟩ with hroom3
    have h3 : findRoom (updateRoom (updateParticipantStatus
        (addConclusion s roomId ⟨userId, text, now⟩) roomId userId true) roomId
          ⟨some RoomStatus.comparing, none⟩).rooms roomId = some room3 := by
      unfold updateRoom
      have := findRoom_updFirstRoom_self
        (updateParticipantStatus (addConclusion s roomId ⟨userId, text, now⟩)
          roomId userId true).rooms roomId
        (fun r => applyRoomUpdate r ⟨some RoomStatus.comparing, none⟩)
        (fun r => rfl)
      rw [h2] at this
      exact this
    refine ⟨room3, ?_, ?_, ?_, ?_, ?_⟩
    · rw [heq, hfin]
      exact h3
    · rw [hroom3]
      rfl
    · rw [hroom3]
      exact hpart2
    · constructor
      · intro _
        exact hcond
      · intro _
        rfl
    · rw [heq, hfin]
      rfl
  · have hfin : submitFinish (updateParticipantStatus
        (addConclusion s roomId ⟨userId, text, now⟩) roomId userId true) roomId =
        ⟨⟨true, "Conclusion submitted successfully", some (decide
            (2 ≤ room2.participants.length ∧
              room2.participants.all (fun q => q.hasSubmitted) = true))⟩,
         updateParticipantStatus (addConclusion s roomId ⟨userId, text, now⟩)
           roomId userId true⟩ := by
      unfold submitFinish
      rw [h2]
      simp [hcond]
      intro hlen hall
      exact absurd ⟨hlen, by simpa [List.all_eq_true] using hall⟩ hcond
    refine ⟨room2, ?_, ?_, ?_, ?_, ?_⟩
    · rw [heq, hfin]
      exact h2
    · rw [hroom2]
    · exact hpart2
    · have hst2 : room2.status = RoomStatus.active := by
        rw [hroom2]
        exact hactive
      constructor
      · intro h
        rw [hst2] at h
        exact absurd h (by intro hh; cases hh)
      · intro h
        exact absurd h hcond
    · rw [heq, hfin]

/-- Witness for C1: Alice submitting first in the two-participant room of
`store2` succeeds; the instantiated post-state facts follow from the
theorem at this concrete input. -/
theorem submitConclusion_success_spec_witness :
    ∃ room',
      findRoom (submitConclusion store2 "uA" "r1" "X is good because..." 5).store.rooms "r1" =
        some room' ∧
      room'.conclusions =
        (⟨"r1", bcryptHash "pw1234", "Is X good?", 0,
          [⟨"uA", "Alice", false⟩, ⟨"uB", "Bob", false⟩], [], none, none,
          RoomStatus.active⟩ : Room).conclusions ++ [⟨"uA", "X is good because...", 5⟩] ∧
      (findPart room'.participants "uA").map Participant.hasSubmitted = some true ∧
      (room'.status = RoomStatus.comparing ↔
        (2 ≤ room'.participants.length ∧
          room'.participants.all (fun q => q.hasSubmitted) = true)) ∧
      (submitConclusion store2 "uA" "r1" "X is good because..." 5).result =
        ⟨true, "Conclusion submitted successfully",
          some (decide (2 ≤ room'.participants.length ∧
            room'.participants.all (fun q => q.hasSubmitted) = true))⟩ :=
  submitConclusion_success_spec store2 "uA" "r1" "X is good because..." 5
    ⟨"r1", bcryptHash "pw1234", "Is X good?", 0,
      [⟨"uA", "Alice", false⟩, ⟨"uB", "Bob", false⟩], [], none, none, RoomStatus.active⟩
    ⟨"uA", "Alice", false⟩ (by decide) (by decide) (by decide) (by decide)

/-! ## Shape lemmas for the comparison orchestrator -/

/-- Any call on a room that is not in `comparing` fails before the gateway
is consulted and returns the store unchanged. -/
theorem compareRoom_not_comparing_shape (s : Store) (roomId : String)
    (gw : Option String) (room : Room)
    (hroom : findRoom s.rooms roomId = some room)
    (hst : room.status ≠ RoomStatus.comparing) :
    compareRoomConclusions s roomId gw =
      ⟨⟨false, none,
        some "Room is not ready for comparison. Both participants must submit their conclusions first."⟩,
       s, false⟩ := by
  unfold compareRoomConclusions
  rw [hroom]
  simp [hst]

/-- With all preconditions met and a successful gateway reply, the call
succeeds and commits the verdict with status `completed`. -/
theorem compareRoom_success_shape (s : Store) (roomId v : String)
    (room : Room) (c1 c2 : Conclusion) (p1 p2 : Participant)
    (hroom : findRoom s.rooms roomId = some room)
    (hst : room.status = RoomStatus.comparing)
    (hc : room.conclusions = [c1, c2])
    (hp1 : findPart room.participants c1.userId = some p1)
    (hp2 : findPart room.participants c2.userId = some p2) :
    compareRoomConclusions s roomId (some v) =
      ⟨⟨true, some v, none⟩,
       updateRoom s roomId ⟨some RoomStatus.completed, some v⟩, true⟩ := by
  unfold compareRoomConclusions
  rw [hroom]
  simp [hst, hc, hp1, hp2]

/-- With all preconditions met but a failing gateway reply, the call fails
after consulting the gateway and returns the store unchanged. -/
theorem compareRoom_gateway_none_shape (s : Store) (roomId : String)
    (room : Room) (c1 c2 : Conclusion) (p1 p2 : Participant)
    (hroom : findRoom s.rooms roomId = some room)
    (hst : room.status = RoomStatus.comparing)
    (hc : room.conclusions = [c1, c2])
    (hp1 : findPart room.participants c1.userId = some p1)
    (hp2 : findPart room.participants c2.userId = some p2) :
    compareRoomConclusions s roomId none =
      ⟨⟨false, none, some "Failed to generate comparison"⟩, s, true⟩ := by
  unfold compareRoomConclusions
  rw [hroom]
  simp [hst, hc, hp1, hp2]

/-- The room stored after a successful comparison commit. -/
theorem compareRoom_committed_room (s : Store) (roomId v : String)
    (room : Room) (hroom : findRoom s.rooms roomId = some room) :
    findRoom (updateRoom s roomId ⟨some RoomStatus.completed, some v⟩).rooms roomId =
      some (applyRoomUpdate room ⟨some RoomStatus.completed, some v⟩) := by
  unfold updateRoom
  have := findRoom_updFirstRoom_self s.rooms roomId
    (fun r => applyRoomUpdate r ⟨some RoomStatus.completed, some v⟩) (fun r => rfl)
  rw [hroom] at this
  exact this

/-! ## C3: comparison precondition guard and idempotence -/

/-- C3: `compareRoomConclusions` fails with the Precondition-class error
whenever the room's status is not exactly `comparing`, with no gateway
call and no store change; and after a first successful call (status now
`completed`, verdict stored) a second call fails the same way, leaving the
stored verdict unchanged and never regenerating it. -/
theorem compareRoom_precondition_guard (s : Store) (roomId : String)
    (gw gw2 : Option String) (room : Room)
    (hroom : findRoom s.rooms roomId = some room) :
    (room.status ≠ RoomStatus.comparing →
      compareRoomConclusions s roomId gw =
        ⟨⟨false, none,
          some "Room is not ready for comparison. Both participants must submit their conclusions first."⟩,
         s, false⟩) ∧
    (∀ v c1 c2 p1 p2, room.status = RoomStatus.comparing →
      room.conclusions = [c1, c2] →
      findPart room.participants c1.userId = some p1 →
      findPart room.participants c2.userId = some p2 →
      (compareRoomConclusions s roomId (some v)).result.success = true ∧
      ∃ room',
        findRoom (compareRoomConclusions s roomId (some v)).store.rooms roomId = some room' ∧
        room'.finalVerdict = some v ∧
        room'.status = RoomStatus.completed ∧
        compareRoomConclusions (compareRoomConclusions s roomId (some v)).store roomId gw2 =
          ⟨⟨false, none,
            some "Room is not ready for comparison. Both participants must submit their conclusions first."⟩,
           (compareRoomConclusions s roomId (some v)).store, false⟩) := by
  constructor
  · intro hst
    exact compareRoom_not_comparing_shape s roomId gw room hroom hst
  · intro v c1 c2 p1 p2 hst hc hp1 hp2
    have hfirst := compareRoom_success_shape s roomId v room c1 c2 p1 p2 hroom hst hc hp1 hp2
    constructor
    · rw [hfirst]
    · have hcommit := compareRoom_committed_room s roomId v room hroom
      refine ⟨applyRoomUpdate room ⟨some RoomStatus.completed, some v⟩, ?_, rfl, rfl, ?_⟩
      · rw [hfirst]
        exact hcommit
      · rw [hfirst]
        exact compareRoom_not_comparing_shape _ roomId gw2 _ hcommit (by intro h; cases h)

/-- Witness for C3: at `store3` (Alice submitted, Bob not, room `active`)
the comparison is rejected with no gateway call; at `store4` it succeeds,
and the repeated call at `store5` is rejected with the verdict intact. -/
theorem compareRoom_precondition_guard_witness :
    (compareRoomConclusions store3 "r1" (some "early verdict") =
      ⟨⟨false, none,
        some "Room is not ready for comparison. Both participants must submit their conclusions first."⟩,
       store3, false⟩) ∧
    ((compareRoomConclusions store4 "r1" (some "the verdict")).result.success = true ∧
      ∃ room',
        findRoom (compareRoomConclusions store4 "r1" (some "the verdict")).store.rooms "r1" = some room' ∧
        room'.finalVerdict = some "the verdict" ∧
        room'.status = RoomStatus.completed ∧
        compareRoomConclusions (compareRoomConclusions store4 "r1" (some "the verdict")).store "r1" (some "other") =
          ⟨⟨false, none,
            some "Room is not ready for comparison. Both participants must submit their conclusions first."⟩,
           (compareRoomConclusions store4 "r1" (some "the verdict")).store, false⟩) :=
  ⟨(compareRoom_precondition_guard store3 "r1" (some "early verdict") (some "x")
      ((findRoom store3.rooms "r1").get (by decide)) (by decide)).1 (by decide),
   (compareRoom_precondition_guard store4 "r1" (some "z") (some "other")
      ((findRoom store4.rooms "r1").get (by decide)) (by decide)).2
     "the verdict" ⟨"uA", "X is good because...", 5⟩ ⟨"uB", "X is bad because...", 6⟩
     ⟨"uA", "Alice", true⟩ ⟨"uB", "Bob", true⟩
     (by decide) (by decide) (by decide) (by decide)⟩

/-! ## C6: gateway failure leaves the room untouched and retryable -/

/-- C6: when the AI gateway call fails, `compareRoomConclusions` returns
the store unchanged — status stays `comparing` and no verdict is written —
and a later call on the same store with a successful gateway reply
succeeds and commits the verdict with status `completed`; the verdict
write happens only on a confirmed gateway success. -/
theorem compareRoom_gateway_failure_retryable (s : Store) (roomId : String)
    (room : Room) (c1 c2 : Conclusion) (p1 p2 : Participant)
    (hroom : findRoom s.rooms roomId = some room)
    (hst : room.status = RoomStatus.comparing)
    (hc : room.conclusions = [c1, c2])
    (hp1 : findPart room.participants c1.userId = some p1)
    (hp2 : findPart room.participants c2.userId = some p2) :
    compareRoomConclusions s roomId none =
      ⟨⟨false, none, some "Failed to generate comparison"⟩, s, true⟩ ∧
    ∀ v, (compareRoomConclusions s roomId (some v)).result.success = true ∧
      ∃ room',
        findRoom (compareRoomConclusions s roomId (some v)).store.rooms roomId = some room' ∧
        room'.finalVerdict = some v ∧ room'.status = RoomStatus.completed := by
  constructor
  · exact compareRoom_gateway_none_shape s roomId room c1 c2 p1 p2 hroom hst hc hp1 hp2
  · intro v
    have hfirst := compareRoom_success_shape s roomId v room c1 c2 p1 p2 hroom hst hc hp1 hp2
    constructor
    · rw [hfirst]
    · refine ⟨applyRoomUpdate room ⟨some RoomStatus.completed, some v⟩, ?_, rfl, rfl⟩
      rw [hfirst]
      exact compareRoom_committed_room s roomId v room hroom

/-- Witness for C6: at `store4` a failing gateway leaves the store exactly
as it was, and a retry with a successful gateway commits the verdict. -/
theorem compareRoom_gateway_failure_retryable_witness :
    compareRoomConclusions store4 "r1" none =
      ⟨⟨false, none, some "Failed to generate comparison"⟩, store4, true⟩ ∧
    ∀ v, (compareRoomConclusions store4 "r1" (some v)).result.success = true ∧
      ∃ room',
        findRoom (compareRoomConclusions store4 "r1" (some v)).store.rooms "r1" = some room' ∧
        room'.finalVerdict = some v ∧ room'.status = RoomStatus.completed :=
  compareRoom_gateway_failure_retryable store4 "r1"
    ((findRoom store4.rooms "r1").get (by decide))
    ⟨"uA", "X is good because...", 5⟩ ⟨"uB", "X is bad because...", 6⟩
    ⟨"uA", "Alice", true⟩ ⟨"uB", "Bob", true⟩
    (by decide) (by decide) (by decide) (by decide) (by decide)

/-! ## Lemmas about sendMessage -/

/-- Appending a message rewrites only the matching session. -/
theorem findSess_addMessage (s : Store) (roomId userId : String) (m : Message) :
    findSess (addMessageToChatSession s roomId userId m).sessions roomId userId =
      (findSess s.sessions roomId userId).map
        (fun c => { c with messages := c.messages ++ [m] }) := by
  unfold addMessageToChatSession
  exact findSess_updFirstSess_self s.sessions roomId userId _ (fun c => ⟨rfl, rfl⟩)

/-- After `sendMessage` on an existing room the (roomId, userId) session
exists and holds the prior messages, then the user message with content
exactly the input text, then the assistant reply when the gateway
succeeded. -/
theorem sendMessage_stored_messages (s : Store) (userId roomId text sid : String)
    (gw : Option String) (now : Nat) (room : Room)
    (hroom : findRoom s.rooms roomId = some room) :
    ((findSess (sendMessage s userId roomId text sid gw now).store.sessions roomId userId).map
        ChatSess.messages) =
      some ((((findSess s.sessions roomId userId).map ChatSess.messages).getD []) ++
        [⟨Role.user, text, now⟩] ++
        (match gw with
         | some reply => [⟨Role.assistant, reply, now⟩]
         | none => [])) := by
  cases hsess : findSess s.sessions roomId userId with
  | some c =>
      have hstore : (sendMessage s userId roomId text sid gw now).store =
          match gw with
          | none => addMessageToChatSession s roomId userId ⟨Role.user, text, now⟩
          | some reply =>
              addMessageToChatSession
                (addMessageToChatSession s roomId userId ⟨Role.user, text, now⟩)
                roomId userId ⟨Role.assistant, reply, now⟩ := by
        unfold sendMessage getChatSession
        rw [hroom]
        cases gw with
        | none => simp [hsess]
        | some reply => simp [hsess]
      cases gw with
      | none =>
          rw [hstore, findSess_addMessage, hsess]
          simp
      | some reply =>
          rw [hstore, findSess_addMessage, findSess_addMessage, hsess]
          simp
  | none =>
      have hsess1 : findSess (createChatSession s
          ⟨sid, roomId, userId, [], true, now⟩).sessions roomId userId =
          some ⟨sid, roomId, userId, [], true, now⟩ := by
        unfold createChatSession
        exact findSess_append_self hsess rfl rfl
      have hstore : (sendMessage s userId roomId text sid gw now).store =
          match gw with
          | none =>
              addMessageToChatSession
                (createChatSession s ⟨sid, roomId, userId, [], true, now⟩)
                roomId userId ⟨Role.user, text, now⟩
          | some reply =>
              addMessageToChatSession
                (addMessageToChatSession
                  (createChatSession s ⟨sid, roomId, userId, [], true, now⟩)
                  roomId userId ⟨Role.user, text, now⟩)
                roomId userId ⟨Role.assistant, reply, now⟩ := by
        unfold sendMessage getChatSession
        rw [hroom]
        cases gw with
        | none => simp [hsess]
        | some reply => simp [hsess]
      cases gw with
      | none =>
          rw [hstore, findSess_addMessage, hsess1]
          simp
      | some reply =>
          rw [hstore, findSess_addMessage, findSess_addMessage, hsess1]
          simp

/-- Projecting the element out of an enumeration ignores the indices. -/
theorem enumFrom_map_proj {α β : Type _} (g : α → β) (l : List α) :
    ∀ k, (List.enumFrom k l).map (fun mi => g mi.2) = l.map g := by
  induction l with
  | nil => intro k; rfl
  | cons x xs ih => intro k; simp only [List.enumFrom, List.map_cons, ih]

/-- The same fact for `List.enum`. -/
theorem enum_map_proj {α β : Type _} (g : α → β) (l : List α) :
    l.enum.map (fun mi => g mi.2) = l.map g :=
  enumFrom_map_proj g l 0

/-- The gateway request transmitted by `sendMessage`: the history equals
the stored history after the user turn, with only the last entry's content
replaced by the augmented prompt — and the replacement differs from the
stored entry only on the first turn of a session in a room whose guiding
question is nonempty. -/
theorem sendMessage_sent_history (s : Store) (userId roomId text sid : String)
    (gw : Option String) (now : Nat) (room : Room)
    (hroom : findRoom s.rooms roomId = some room) :
    (sendMessage s userId roomId text sid gw now).sent =
      some (⟨(if (((findSess s.sessions roomId userId).map ChatSess.messages).getD []) = [] ∧
               room.guidingQuestion ≠ "" then
               augmentedPrompt room.guidingQuestion text else text),
            (((((findSess s.sessions roomId userId).map ChatSess.messages).getD []) ++
                [(⟨Role.user, text, now⟩ : Message)]).map
                  (fun m => (m.role, m.content))).dropLast ++
              [(Role.user,
                if (((findSess s.sessions roomId userId).map ChatSess.messages).getD []) = [] ∧
                    room.guidingQuestion ≠ "" then
                  augmentedPrompt room.guidingQuestion text else text)]⟩ : GatewayRequest) := by
  cases hsess : findSess s.sessions roomId userId with
  | none =>
      unfold sendMessage getChatSession
      rw [hroom, hsess]
      cases gw with
      | none =>
          by_cases hq : room.guidingQuestion = ""
          · simp [hq, List.enum, List.enumFrom]
          · simp [hq, List.enum, List.enumFrom]
      | some reply =>
          by_cases hq : room.guidingQuestion = ""
          · simp [hq, List.enum, List.enumFrom]
          · simp [hq, List.enum, List.enumFrom]
  | some c =>
      cases hmsgs : c.messages with
      | nil =>
          unfold sendMessage getChatSession
          rw [hroom, hsess]
          cases gw with
          | none =>
              by_cases hq : room.guidingQuestion = ""
              · simp [hmsgs, hq, List.enum, List.enumFrom]
              · simp [hmsgs, hq, List.enum, List.enumFrom]
          | some reply =>
              by_cases hq : room.guidingQuestion = ""
              · simp [hmsgs, hq, List.enum, List.enumFrom]
              · simp [hmsgs, hq, List.enum, List.enumFrom]
      | cons m0 ms =>
          have hpre : c.messages ≠ [] := by
            rw [hmsgs]
            exact List.cons_ne_nil m0 ms
          have hlen : ((c.messages ++ [(⟨Role.user, text, now⟩ : Message)]).length == 1) = false := by
            rw [hmsgs]
            simp
          have hproj := enum_map_proj
            (fun m : Message => (m.role, m.content))
            (c.messages ++ [(⟨Role.user, text, now⟩ : Message)])
          unfold sendMessage getChatSession
          rw [hroom, hsess]
          cases gw with
          | none =>
              simp only [hlen, Bool.and_false, Bool.false_and, Bool.false_eq_true,
                if_false, Option.map_some, Option.getD_some]
              rw [hproj]
              simp [hpre, List.dropLast_concat]
          | some reply =>
              simp only [hlen, Bool.and_false, Bool.false_and, Bool.false_eq_true,
                if_false, Option.map_some, Option.getD_some]
              rw [hproj]
              simp [hpre, List.dropLast_concat]

/-! ## C7: stored-vs-transmitted round trip -/

/-- C7: the user message persisted by `sendMessage` has content exactly
the input text, and the history transmitted to the AI gateway equals the
stored history with only the last entry's content substituted by the
augmented version (guiding question + user text) — a substitution that is
proper only on the first turn of a session in a room with a nonempty
guiding question (`apiMessageContent` is the plain text otherwise); no
other entry of the transmitted payload differs from the stored history. -/
theorem sendMessage_round_trip (s : Store) (userId roomId text sid : String)
    (gw : Option String) (now : Nat) (room : Room)
    (hroom : findRoom s.rooms roomId = some room) :
    ((findSess (sendMessage s userId roomId text sid gw now).store.sessions roomId userId).map
        ChatSess.messages) =
      some ((((findSess s.sessions roomId userId).map ChatSess.messages).getD []) ++
        [⟨Role.user, text, now⟩] ++
        (match gw with
         | some reply => [⟨Role.assistant, reply, now⟩]
         | none => [])) ∧
    (sendMessage s userId roomId text sid gw now).sent =
      some (⟨(if (((findSess s.sessions roomId userId).map ChatSess.messages).getD []) = [] ∧
               room.guidingQuestion ≠ "" then
               augmentedPrompt room.guidingQuestion text else text),
            (((((findSess s.sessions roomId userId).map ChatSess.messages).getD []) ++
                [(⟨Role.user, text, now⟩ : Message)]).map
                  (fun m => (m.role, m.content))).dropLast ++
              [(Role.user,
                if (((findSess s.sessions roomId userId).map ChatSess.messages).getD []) = [] ∧
                    room.guidingQuestion ≠ "" then
                  augmentedPrompt room.guidingQuestion text else text)]⟩ : GatewayRequest) :=
  ⟨sendMessage_stored_messages s userId roomId text sid gw now room hroom,
   sendMessage_sent_history s userId roomId text sid gw now room hroom⟩

/-- Witness for C7: Alice's first turn in `store2` (room with guiding
question "Is X good?"): the stored user message is exactly "hello" while
the transmitted last (and only) entry carries the augmented prompt. -/
theorem sendMessage_round_trip_witness :
    ((findSess (sendMessage store2 "uA" "r1" "hello" "sidA" (some "hi there") 3).store.sessions
        "r1" "uA").map ChatSess.messages) =
      some [⟨Role.user, "hello", 3⟩, ⟨Role.assistant, "hi there", 3⟩] ∧
    (sendMessage store2 "uA" "r1" "hello" "sidA" (some "hi there") 3).sent =
      some (⟨augmentedPrompt "Is X good?" "hello",
             [(Role.user, augmentedPrompt "Is X good?" "hello")]⟩ : GatewayRequest) := by
  have h := sendMessage_round_trip store2 "uA" "r1" "hello" "sidA" (some "hi there") 3
    ⟨"r1", bcryptHash "pw1234", "Is X good?", 0,
      [⟨"uA", "Alice", false⟩, ⟨"uB", "Bob", false⟩], [], none, none, RoomStatus.active⟩
    (by decide)
  exact ⟨h.1, by
    rw [h.2]
    decide⟩

/-! ## C9: sendMessage performs no participation check -/

/-- C9: `sendMessage` never fails with the not-a-participant error for any
caller — including users who never created or joined the room; whenever
the room exists it lazily ensures a chat session for the (roomId, userId)
pair, and with a successful gateway reply the chat turn succeeds for any
user id whatsoever. -/
theorem sendMessage_no_participation_check (s : Store)
    (userId roomId text sid : String) (gw : Option String) (now : Nat) :
    ((sendMessage s userId roomId text sid gw now).result.message ≠
      some "You are not a participant in this room") ∧
    (∀ room, findRoom s.rooms roomId = some room →
      findSess (sendMessage s userId roomId text sid gw now).store.sessions roomId userId ≠ none ∧
      ∀ reply, gw = some reply →
        (sendMessage s userId roomId text sid gw now).result.success = true ∧
        (sendMessage s userId roomId text sid gw now).result.response = some reply) := by
  constructor
  · unfold sendMessage getChatSession
    cases hroom : findRoom s.rooms roomId with
    | none => simp
    | some room =>
        cases hsess : findSess s.sessions roomId userId with
        | none =>
            cases gw with
            | none => simp
            | some reply => simp
        | some c =>
            cases gw with
            | none => simp
            | some reply => simp
  · intro room hroom
    constructor
    · intro hnone
      have h := sendMessage_stored_messages s userId roomId text sid gw now room hroom
      rw [hnone] at h
      simp at h
    · intro reply hgw
      subst hgw
      unfold sendMessage getChatSession
      rw [hroom]
      cases hsess : findSess s.sessions roomId userId with
      | none => simp [hsess]
      | some c => simp [hsess]

/-- Witness for C9: Carol, who never joined room r1, can chat in it at
`store2`: no participation failure, a session is created, the turn
succeeds. -/
theorem sendMessage_no_participation_check_witness :
    ((sendMessage store2 "uC" "r1" "intruding" "sidC" (some "welcome") 9).result.message ≠
      some "You are not a participant in this room") ∧
    (findSess (sendMessage store2 "uC" "r1" "intruding" "sidC" (some "welcome") 9).store.sessions
        "r1" "uC" ≠ none ∧
      (sendMessage store2 "uC" "r1" "intruding" "sidC" (some "welcome") 9).result.success = true ∧
      (sendMessage store2 "uC" "r1" "intruding" "sidC" (some "welcome") 9).result.response =
        some "welcome") := by
  have h := sendMessage_no_participation_check store2 "uC" "r1" "intruding" "sidC"
    (some "welcome") 9
  have h2 := h.2 ⟨"r1", bcryptHash "pw1234", "Is X good?", 0,
    [⟨"uA", "Alice", false⟩, ⟨"uB", "Bob", false⟩], [], none, none, RoomStatus.active⟩
    (by decide)
  exact ⟨h.1, h2.1, h2.2 "welcome" rfl⟩

/-! ## C10: comparison can be triggered by any authenticated user -/

/-- C10: the comparison controller checks only that *some* authenticated
user id is present — its outcome is identical for any two authenticated
callers, participant or not — and for a room in `comparing` status with
two valid conclusions any authenticated user's call generates and
persists the verdict and advances the room to `completed`; the caller's
identity is never compared against the participants list. -/
theorem compareCtrl_no_participation (s : Store) (roomId : String)
    (gw : Option String) :
    (∀ u1 u2, compareRoomConclusionsCtrl (some u1) s roomId gw =
      compareRoomConclusionsCtrl (some u2) s roomId gw) ∧
    (∀ userId room v c1 c2 p1 p2,
      findRoom s.rooms roomId = some room →
      room.status = RoomStatus.comparing →
      room.conclusions = [c1, c2] →
      findPart room.participants c1.userId = some p1 →
      findPart room.participants c2.userId = some p2 →
      gw = some v →
      compareRoomConclusionsCtrl (some userId) s roomId gw =
        ⟨200, true, some v, updateRoom s roomId ⟨some RoomStatus.completed, some v⟩⟩ ∧
      ∃ room',
        findRoom (compareRoomConclusionsCtrl (some userId) s roomId gw).store.rooms roomId =
          some room' ∧
        room'.finalVerdict = some v ∧ room'.status = RoomStatus.completed) := by
  constructor
  · intro u1 u2
    rfl
  · intro userId room v c1 c2 p1 p2 hroom hst hc hp1 hp2 hgw
    subst hgw
    have hshape := compareRoom_success_shape s roomId v room c1 c2 p1 p2 hroom hst hc hp1 hp2
    have hctrl : compareRoomConclusionsCtrl (some userId) s roomId (some v) =
        ⟨200, true, some v, updateRoom s roomId ⟨some RoomStatus.completed, some v⟩⟩ := by
      unfold compareRoomConclusionsCtrl
      rw [hshape]
      simp
    refine ⟨hctrl, applyRoomUpdate room ⟨some RoomStatus.completed, some v⟩, ?_, rfl, rfl⟩
    rw [hctrl]
    exact compareRoom_committed_room s roomId v room hroom

/-- Witness for C10: Carol, who is not a participant of r1, triggers the
comparison at `store4` and the verdict is committed. -/
theorem compareCtrl_no_participation_witness :
    (compareRoomConclusionsCtrl (some "uC") store4 "r1" (some "the verdict") =
      compareRoomConclusionsCtrl (some "uA") store4 "r1" (some "the verdict")) ∧
    compareRoomConclusionsCtrl (some "uC") store4 "r1" (some "the verdict") =
      ⟨200, true, some "the verdict",
        updateRoom store4 "r1" ⟨some RoomStatus.completed, some "the verdict"⟩⟩ :=
  ⟨(compareCtrl_no_participation store4 "r1" (some "the verdict")).1 "uC" "uA",
   ((compareCtrl_no_participation store4 "r1" (some "the verdict")).2 "uC"
      ((findRoom store4.rooms "r1").get (by decide)) "the verdict"
      ⟨"uA", "X is good because...", 5⟩ ⟨"uB", "X is bad because...", 6⟩
      ⟨"uA", "Alice", true⟩ ⟨"uB", "Bob", true⟩
      (by decide) (by decide) (by decide) (by decide) (by decide) rfl).1⟩

/-! ## C4: interleaved submissions (small-step model)

Each repository call inside `submitConclusion` is an `await` on the
store, so a concurrent invocation can observe the store between any two
of them.  A submission in flight is a program counter over the phases of
`submitConclusion`: 0 = the guard reads (`findRoomById`, participant and
flag checks), 1 = `addConclusion`, 2 = `updateParticipantStatus`,
3 = the completeness re-read and conditional status write, 4 = done. -/

/-- One in-flight `submitConclusion` invocation. -/
structure SubmitProc where
  userId : String
  roomId : String
  text : String
  now : Nat
  pc : Nat
  result : Option SubmitResult
deriving DecidableEq

/-- Execute the next phase of an in-flight submission against the current
store.  The phases are exactly the awaited repository calls of
`submitConclusion` (`submitCheck`, `addConclusion`,
`updateParticipantStatus`, `submitFinish`). -/
def submitStep (s : Store) (p : SubmitProc) : Store × SubmitProc :=
  match p.pc with
  | 0 =>
      (match submitCheck s p.userId p.roomId with
       | some e => (s, { p with pc := 4, result := some e })
       | none => (s, { p with pc := 1 }))
  | 1 => (addConclusion s p.roomId ⟨p.userId, p.text, p.now⟩, { p with pc := 2 })
  | 2 => (updateParticipantStatus s p.roomId p.userId true, { p with pc := 3 })
  | 3 =>
      let out := submitFinish s p.roomId
      (out.store, { p with pc := 4, result := some out.result })
  | _ => (s, p)

/-- Run two concurrent submissions under a schedule: `true` steps the
first process, `false` the second. -/
def runSchedule : Store → SubmitProc → SubmitProc → List Bool → Store × SubmitProc × SubmitProc
  | s, p1, p2, [] => (s, p1, p2)
  | s, p1, p2, b :: rest =>
      if b then
        let sp := submitStep s p1
        runSchedule sp.1 sp.2 p2 rest
      else
        let sp := submitStep s p2
        runSchedule sp.1 p1 sp.2 rest

/-- Coherence of the step model: driving a single process to completion
with no interleaving agrees with the sequential `submitConclusion`. -/
theorem runSchedule_single_agrees (s : Store) (userId roomId text : String)
    (now : Nat) (q : SubmitProc) :
    (runSchedule s ⟨userId, roomId, text, now, 0, none⟩ q
        [true, true, true, true]).1 =
      (submitConclusion s userId roomId text now).store ∧
    (runSchedule s ⟨userId, roomId, text, now, 0, none⟩ q
        [true, true, true, true]).2.1.result =
      some (submitConclusion s userId roomId text now).result := by
  cases hc : submitCheck s userId roomId with
  | some e => simp [runSchedule, submitStep, submitConclusion, hc]
  | none => simp [runSchedule, submitStep, submitConclusion, hc]

/-- A two-participant room, nobody has submitted yet. -/
def raceStore : Store :=
  ⟨[⟨"r1", bcryptHash "pw1234", "Is X good?", 0,
     [⟨"uA", "Alice", false⟩, ⟨"uB", "Bob", false⟩], [], none, none,
     RoomStatus.active⟩], [], [⟨"uA", "Alice"⟩, ⟨"uB", "Bob"⟩]⟩

/-- First concurrent submission by Alice. -/
def raceProcA1 : SubmitProc := ⟨"uA", "r1", "first conclusion", 1, 0, none⟩

/-- Second concurrent submission by the same Alice. -/
def raceProcA2 : SubmitProc := ⟨"uA", "r1", "second conclusion", 2, 0, none⟩

/-- The interleaving in which both of Alice's submissions pass the
duplicate-submission guard before either writes. -/
def raceSchedule : List Bool := [true, false, true, true, true, false, false, false]

/-- C4: the code does not implement an atomic compare-and-set on the
submission flag — `updateParticipantStatus` is an unconditional
find-mutate-save — so under the interleaving in which both of the same
user's `submitConclusion` calls perform their guard reads before either
write, both calls succeed and two conclusions for the same user are
appended, instead of exactly one success and one Conflict. -/
theorem submitConclusion_race_double_success :
    (runSchedule raceStore raceProcA1 raceProcA2 raceSchedule).2.1.result =
      some ⟨true, "Conclusion submitted successfully", some false⟩ ∧
    (runSchedule raceStore raceProcA1 raceProcA2 raceSchedule).2.2.result =
      some ⟨true, "Conclusion submitted successfully", some false⟩ ∧
    ((findRoom (runSchedule raceStore raceProcA1 raceProcA2 raceSchedule).1.rooms "r1").map
        (fun r => (r.conclusions.filter (fun c => c.userId == "uA")).length)) = some 2 := by
  decide

/-! ## C5: monotone lifecycle over all reachable stores -/

/-- Numeric order of the lifecycle: `active < comparing < completed`. -/
def statusOrder : RoomStatus → Nat
  | RoomStatus.active => 0
  | RoomStatus.comparing => 1
  | RoomStatus.completed => 2

/-- One invocation of a core operation, with all of its inputs (gateway
replies and timestamps included as data). -/
inductive Op where
  | register (u : User)
  | create (userId guidingQuestion password newId : String) (now : Nat)
  | join (userId roomId password : String)
  | send (userId roomId text sid : String) (gw : Option String) (now : Nat)
  | submit (userId roomId text : String) (now : Nat)
  | compare (roomId : String) (gw : Option String)
  | getStatus (userId roomId : String)

/-- The store after one operation.  `getRoomStatus` is read-only: it
returns only a projection, so the store is unchanged. -/
def applyOp (s : Store) : Op → Store
  | Op.register u => { s with users := s.users ++ [u] }
  | Op.create userId q pw newId now => (createRoom s userId q pw newId now).store
  | Op.join userId roomId pw => (joinRoom s userId roomId pw).store
  | Op.send userId roomId text sid gw now => (sendMessage s userId roomId text sid gw now).store
  | Op.submit userId roomId text now => (submitConclusion s userId roomId text now).store
  | Op.compare roomId gw => (compareRoomConclusions s roomId gw).store
  | Op.getStatus _ _ => s

/-- Stores reachable from an empty deployment by core operations. -/
inductive Reachable : Store → Prop where
  | init (users : List User) : Reachable ⟨[], [], users⟩
  | step (s : Store) (op : Op) : Reachable s → Reachable (applyOp s op)

/-- The lifecycle invariant: a room that has left `active` has at least
two participants, all of whom have submitted. -/
def RoomInv (r : Room) : Prop :=
  r.status ≠ RoomStatus.active →
    2 ≤ r.participants.length ∧ r.participants.all (fun p => p.hasSubmitted) = true

/-- Every stored room satisfies the lifecycle invariant. -/
def StoreInv (s : Store) : Prop := ∀ r ∈ s.rooms, RoomInv r

theorem storeInv_updFirstRoom {rs : List Room} {roomId : String} {f : Room → Room}
    (h : ∀ r ∈ rs, RoomInv r)
    (hf : ∀ r, r ∈ rs → findRoom rs roomId = some r → RoomInv (f r)) :
    ∀ r ∈ updFirstRoom rs roomId f, RoomInv r := by
  intro x hx
  rcases mem_updFirstRoom hx with h1 | ⟨r, hr, hxr⟩
  · exact h x h1
  · rw [hxr]
    exact hf r (findRoom_mem hr) hr

theorem storeInv_addConclusion (s : Store) (roomId : String) (c : Conclusion)
    (h : StoreInv s) : StoreInv (addConclusion s roomId c) := by
  unfold addConclusion
  intro r hr
  refine storeInv_updFirstRoom h ?_ r hr
  intro r0 hmem hfind hst
  exact (h r0 hmem) hst

theorem storeInv_updateParticipantStatus_true (s : Store) (roomId userId : String)
    (h : StoreInv s) : StoreInv (updateParticipantStatus s roomId userId true) := by
  intro r hr
  refine storeInv_updFirstRoom h (fun r0 hmem _ => fun hst => ?_) r hr
  have hinv := h r0 hmem hst
  exact ⟨by rw [setSubmittedFirst_length]; exact hinv.1,
         all_setSubmittedFirst_true hinv.2⟩

theorem storeInv_submitFinish (s : Store) (roomId : String) (h : StoreInv s) :
    StoreInv (submitFinish s roomId).store := by
  unfold submitFinish
  cases hroom : findRoom s.rooms roomId with
  | none => exact h
  | some updatedRoom =>
      dsimp only
      by_cases hcond : 2 ≤ updatedRoom.participants.length ∧
          updatedRoom.participants.all (fun p => p.hasSubmitted) = true
      · rw [if_pos hcond]
        intro r hr
        refine storeInv_updFirstRoom h (fun r0 hmem hfind => fun hst => ?_) r hr
        have : r0 = updatedRoom := by
          rw [hroom] at hfind
          exact (Option.some_inj.mp hfind).symm
        rw [this]
        exact hcond
      · rw [if_neg hcond]
        exact h

theorem storeInv_create (s : Store) (userId q pw newId : String) (now : Nat)
    (h : StoreInv s) : StoreInv (createRoom s userId q pw newId now).store := by
  unfold createRoom
  cases hu : findUser s.users userId with
  | none => exact h
  | some u =>
      cases hr : findRoom s.rooms newId with
      | some r0 => exact h
      | none =>
          intro r hmem
          rcases List.mem_append.mp hmem with h1 | h2
          · exact h r h1
          · intro hst
            simp only [List.mem_singleton] at h2
            rw [h2] at hst
            exact absurd rfl hst

theorem storeInv_join (s : Store) (userId roomId pw : String) (h : StoreInv s) :
    StoreInv (joinRoom s userId roomId pw).store := by
  unfold joinRoom
  cases hroom : findRoom s.rooms roomId with
  | none => exact h
  | some room =>
      cases huser : findUser s.users userId with
      | none => exact h
      | some user =>
          by_cases hpw : bcryptCompare pw room.password = true
          · by_cases hin : room.participants.any (fun p => p.userId == userId) = true
            · simp only [hpw, hin, if_true]
              exact h
            · by_cases hlen : 2 ≤ room.participants.length
              · simp only [hpw, hin, hlen, if_true, if_false, Bool.false_eq_true]
                exact h
              · simp only [hpw, hin, hlen, if_true, if_false, Bool.false_eq_true]
                unfold addParticipant
                intro r hr
                refine storeInv_updFirstRoom h (fun r0 hmem hfind => fun hst => ?_) r hr
                have hr0 : r0 = room := by
                  rw [hroom] at hfind
                  exact (Option.some_inj.mp hfind).symm
                subst hr0
                by_cases hc : r0.participants.any
                    (fun q => q.userId == (⟨userId, user.username, false⟩ : Participant).userId) = true
                · rw [if_pos hc] at hst ⊢
                  exact h r0 hmem hst
                · rw [if_neg hc] at hst ⊢
                  exact absurd ((h r0 hmem) hst).1 hlen
          · simp only [hpw, Bool.false_eq_true, if_false]
            exact h

theorem storeInv_rooms_eq {s s' : Store} (hrooms : s'.rooms = s.rooms)
    (h : StoreInv s) : StoreInv s' := by
  intro r hr
  rw [hrooms] at hr
  exact h r hr

theorem storeInv_submit (s : Store) (userId roomId text : String) (now : Nat)
    (h : StoreInv s) : StoreInv (submitConclusion s userId roomId text now).store := by
  unfold submitConclusion
  cases hc : submitCheck s userId roomId with
  | some e => exact h
  | none =>
      exact storeInv_submitFinish _ roomId
        (storeInv_updateParticipantStatus_true _ roomId userId
          (storeInv_addConclusion s roomId ⟨userId, text, now⟩ h))

theorem storeInv_compare (s : Store) (roomId : String) (gw : Option String)
    (h : StoreInv s) : StoreInv (compareRoomConclusions s roomId gw).store := by
  unfold compareRoomConclusions
  cases hroom : findRoom s.rooms roomId with
  | none => exact h
  | some room =>
      dsimp only
      by_cases hst : room.status ≠ RoomStatus.comparing
      · rw [if_pos hst]
        exact h
      · rw [if_neg hst]
        by_cases hclen : room.conclusions.length ≠ 2
        · rw [if_pos hclen]
          exact h
        · rw [if_neg hclen]
          cases hcs : room.conclusions with
          | nil => exact h
          | cons c1 tail =>
              cases tail with
              | nil => exact h
              | cons c2 tail2 =>
                  cases tail2 with
                  | cons c3 tail3 => exact h
                  | nil =>
                      dsimp only
                      cases hp1 : findPart room.participants c1.userId with
                      | none => exact h
                      | some p1 =>
                          cases hp2 : findPart room.participants c2.userId with
                          | none => exact h
                          | some p2 =>
                              cases gw with
                              | none => exact h
                              | some v =>
                                  unfold updateRoom
                                  intro r hr
                                  refine storeInv_updFirstRoom h ?_ r hr
                                  intro r0 hmem hfind hne
                                  have hr0 : r0 = room := by
                                    rw [hroom] at hfind
                                    exact (Option.some_inj.mp hfind).symm
                                  subst hr0
                                  have hstat : r0.status = RoomStatus.comparing :=
                                    not_not.mp hst
                                  exact (h r0 hmem) (by
                                    rw [hstat]
                                    intro hx
                                    cases hx)

theorem storeInv_applyOp (s : Store) (op : Op) (h : StoreInv s) :
    StoreInv (applyOp s op) := by
  cases op with
  | register u => exact fun r hr => h r hr
  | create userId q pw newId now => exact storeInv_create s userId q pw newId now h
  | join userId roomId pw => exact storeInv_join s userId roomId pw h
  | send userId roomId text sid gw now =>
      exact storeInv_rooms_eq (sendMessage_rooms s userId roomId text sid gw now) h
  | submit userId roomId text now => exact storeInv_submit s userId roomId text now h
  | compare roomId gw => exact storeInv_compare s roomId gw h
  | getStatus userId roomId => exact h

/-- Every reachable store satisfies the lifecycle invariant. -/
theorem reachable_storeInv (s : Store) (h : Reachable s) : StoreInv s := by
  induction h with
  | init users => intro r hr; simp at hr
  | step s op hs ih => exact storeInv_applyOp s op ih

theorem status_eq_of_findRoom_eq {rs : List Room} {id : String} {r r' : Room}
    (h : findRoom rs id = some r) (h' : findRoom rs id = some r') :
    r'.status = r.status := by
  rw [h] at h'
  exact congrArg Room.status (Option.some_inj.mp h').symm

theorem findRoom_status_preserved (rs : List Room) (roomId id : String)
    (f : Room → Room) (hid : ∀ r, (f r).id = r.id)
    (hstf : ∀ r, (f r).status = r.status) {r r' : Room}
    (h : findRoom rs id = some r)
    (h' : findRoom (updFirstRoom rs roomId f) id = some r') :
    r'.status = r.status := by
  by_cases hcase : id = roomId
  · subst hcase
    rw [findRoom_updFirstRoom_self rs id f hid, h] at h'
    simp only [Option.map_some'] at h'
    rw [← Option.some_inj.mp h']
    exact hstf r
  · rw [findRoom_updFirstRoom_ne rs roomId id f hid hcase] at h'
    exact status_eq_of_findRoom_eq h h'

theorem findPart_all_true {ps : List Participant} {userId : String}
    {p : Participant} (hall : ps.all (fun q => q.hasSubmitted) = true)
    (hp : findPart ps userId = some p) : p.hasSubmitted = true :=
  List.all_eq_true.mp hall p (findPart_mem hp)

theorem submitCheck_none_inv {s : Store} {userId roomId : String}
    (h : submitCheck s userId roomId = none) :
    ∃ room p, findRoom s.rooms roomId = some room ∧
      findPart room.participants userId = some p ∧ p.hasSubmitted = false := by
  unfold submitCheck at h
  cases hroom : findRoom s.rooms roomId with
  | none => rw [hroom] at h; simp at h
  | some room =>
      rw [hroom] at h
      cases hp : findPart room.participants userId with
      | none => simp [hp] at h
      | some p =>
          by_cases hflag : p.hasSubmitted = true
          · simp [hp, hflag] at h
          · exact ⟨room, p, rfl, hp, by simpa using hflag⟩

theorem findRoom_submitFinish_ne (s : Store) (roomId id : String)
    (hid : id ≠ roomId) :
    findRoom (submitFinish s roomId).store.rooms id = findRoom s.rooms id := by
  unfold submitFinish
  cases hf : findRoom s.rooms roomId with
  | none => rfl
  | some updatedRoom =>
      dsimp only
      by_cases hcond : 2 ≤ updatedRoom.participants.length ∧
          updatedRoom.participants.all (fun p => p.hasSubmitted) = true
      · rw [if_pos hcond]
        unfold updateRoom
        exact findRoom_updFirstRoom_ne s.rooms roomId id _ (fun r0 => rfl) hid
      · rw [if_neg hcond]

theorem statusOrder_mono_create (s : Store) (userId q pw newId : String)
    (now : Nat) (id : String) (r r' : Room)
    (h : findRoom s.rooms id = some r)
    (h' : findRoom (createRoom s userId q pw newId now).store.rooms id = some r') :
    statusOrder r.status ≤ statusOrder r'.status := by
  have hsame : r'.status = r.status := by
    revert h'
    unfold createRoom
    cases hu : findUser s.users userId with
    | none => exact fun h' => status_eq_of_findRoom_eq h h'
    | some u =>
        cases hr0 : findRoom s.rooms newId with
        | some r0 => exact fun h' => status_eq_of_findRoom_eq h h'
        | none =>
            intro h'
            exact status_eq_of_findRoom_eq (findRoom_append_some _ h) h'
  rw [hsame]

theorem statusOrder_mono_join (s : Store) (userId roomId pw : String)
    (id : String) (r r' : Room)
    (h : findRoom s.rooms id = some r)
    (h' : findRoom (joinRoom s userId roomId pw).store.rooms id = some r') :
    statusOrder r.status ≤ statusOrder r'.status := by
  have hsame : r'.status = r.status := by
    revert h'
    unfold joinRoom
    cases hroom : findRoom s.rooms roomId with
    | none => exact fun h' => status_eq_of_findRoom_eq h h'
    | some room =>
        cases huser : findUser s.users userId with
        | none => exact fun h' => status_eq_of_findRoom_eq h h'
        | some user =>
            by_cases hpw : bcryptCompare pw room.password = true
            · by_cases hin : room.participants.any (fun p => p.userId == userId) = true
              · simp only [hpw, hin, if_true]
                exact fun h' => status_eq_of_findRoom_eq h h'
              · by_cases hlen : 2 ≤ room.participants.length
                · simp only [hpw, hin, hlen, if_true, if_false, Bool.false_eq_true]
                  exact fun h' => status_eq_of_findRoom_eq h h'
                · simp only [hpw, hin, hlen, if_true, if_false, Bool.false_eq_true]
                  intro h'
                  exact findRoom_status_preserved s.rooms roomId id _
                    (fun r0 => by dsimp only; split <;> rfl)
                    (fun r0 => by dsimp only; split <;> rfl) h h'
            · simp only [hpw, Bool.false_eq_true, if_false]
              exact fun h' => status_eq_of_findRoom_eq h h'
  rw [hsame]

theorem statusOrder_mono_send (s : Store) (userId roomId text sid : String)
    (gw : Option String) (now : Nat) (id : String) (r r' : Room)
    (h : findRoom s.rooms id = some r)
    (h' : findRoom (sendMessage s userId roomId text sid gw now).store.rooms id = some r') :
    statusOrder r.status ≤ statusOrder r'.status := by
  rw [sendMessage_rooms] at h'
  rw [status_eq_of_findRoom_eq h h']

theorem statusOrder_mono_submit (s : Store) (userId roomId text : String)
    (now : Nat) (hinv : StoreInv s) (id : String) (r r' : Room)
    (h : findRoom s.rooms id = some r)
    (h' : findRoom (submitConclusion s userId roomId text now).store.rooms id = some r') :
    statusOrder r.status ≤ statusOrder r'.status := by
  revert h'
  unfold submitConclusion
  cases hc : submitCheck s userId roomId with
  | some e =>
      intro h'
      rw [status_eq_of_findRoom_eq h h']
  | none =>
      intro h'
      rcases submitCheck_none_inv hc with ⟨room, p, hroom, hp, hflag⟩
      by_cases hid : id = roomId
      · subst hid
        have hreq : r = room := by
          rw [hroom] at h
          exact (Option.some_inj.mp h).symm
        have hactive : r.status = RoomStatus.active := by
          by_contra hne
          have hall := (hinv r (findRoom_mem h)) hne
          have hsub := findPart_all_true hall.2 (by rw [hreq]; exact hp)
          rw [hflag] at hsub
          cases hsub
        rw [hactive]
        exact Nat.zero_le _
      · have e1 : findRoom (addConclusion s roomId ⟨userId, text, now⟩).rooms id =
            findRoom s.rooms id := by
          unfold addConclusion
          exact findRoom_updFirstRoom_ne s.rooms roomId id _ (fun r0 => rfl) hid
        have e2 : findRoom (updateParticipantStatus
            (addConclusion s roomId ⟨userId, text, now⟩) roomId userId true).rooms id =
            findRoom (addConclusion s roomId ⟨userId, text, now⟩).rooms id := by
          unfold updateParticipantStatus
          exact findRoom_updFirstRoom_ne _ roomId id _ (fun r0 => rfl) hid
        rw [findRoom_submitFinish_ne _ roomId id hid, e2, e1] at h'
        rw [status_eq_of_findRoom_eq h h']

theorem statusOrder_mono_compare (s : Store) (roomId : String)
    (gw : Option String) (id : String) (r r' : Room)
    (h : findRoom s.rooms id = some r)
    (h' : findRoom (compareRoomConclusions s roomId gw).store.rooms id = some r') :
    statusOrder r.status ≤ statusOrder r'.status := by
  revert h'
  unfold compareRoomConclusions
  cases hroom : findRoom s.rooms roomId with
  | none =>
      intro h'
      rw [status_eq_of_findRoom_eq h h']
  | some room =>
      dsimp only
      by_cases hst : room.status ≠ RoomStatus.comparing
      · rw [if_pos hst]
        intro h'
        rw [status_eq_of_findRoom_eq h h']
      · rw [if_neg hst]
        by_cases hclen : room.conclusions.length ≠ 2
        · rw [if_pos hclen]
          intro h'
          rw [status_eq_of_findRoom_eq h h']
        · rw [if_neg hclen]
          cases hcs : room.conclusions with
          | nil =>
              intro h'
              rw [status_eq_of_findRoom_eq h h']
          | cons c1 tail =>
              cases tail with
              | nil =>
                  intro h'
                  rw [status_eq_of_findRoom_eq h h']
              | cons c2 tail2 =>
                  cases tail2 with
                  | cons c3 tail3 =>
                      intro h'
                      rw [status_eq_of_findRoom_eq h h']
                  | nil =>
                      dsimp only
                      cases hp1 : findPart room.participants c1.userId with
                      | none =>
                          intro h'
                          rw [status_eq_of_findRoom_eq h h']
                      | some p1 =>
                          cases hp2 : findPart room.participants c2.userId with
                          | none =>
                              intro h'
                              rw [status_eq_of_findRoom_eq h h']
                          | some p2 =>
                              cases gw with
                              | none =>
                                  intro h'
                                  rw [status_eq_of_findRoom_eq h h']
                              | some v =>
                                  intro h'
                                  by_cases hid : id = roomId
                                  · subst hid
                                    have hreq : r = room := by
                                      rw [hroom] at h
                                      exact (Option.some_inj.mp h).symm
                                    have hr' : r' = applyRoomUpdate room
                                        ⟨some RoomStatus.completed, some v⟩ := by
                                      dsimp only at h'
                                      simp only [updateRoom] at h'
                                      rw [findRoom_updFirstRoom_self s.rooms id
                                        (fun r => applyRoomUpdate r
                                          ⟨some RoomStatus.completed, some v⟩)
                                        (fun r0 => rfl), hroom] at h'
                                      simp only [Option.map_some'] at h'
                                      exact (Option.some_inj.mp h').symm
                                    rw [hreq, hr', not_not.mp hst]
                                    show statusOrder RoomStatus.comparing ≤
                                      statusOrder RoomStatus.completed
                                    decide
                                  · dsimp only at h'
                                    simp only [updateRoom] at h'
                                    rw [findRoom_updFirstRoom_ne s.rooms roomId id
                                      (fun r => applyRoomUpdate r
                                        ⟨some RoomStatus.completed, some v⟩)
                                      (fun r0 => rfl) hid] at h'
                                    rw [status_eq_of_findRoom_eq h h']

/-- C5: over every reachable store, no core operation (createRoom,
joinRoom, sendMessage, submitConclusion, compareRoom, getRoomStatus, user
registration) ever moves a room's status backward: the status order
active < comparing < completed is monotone along every step, so status
regression is unreachable. -/
theorem status_monotone (s : Store) (hreach : Reachable s) (op : Op)
    (id : String) (r r' : Room)
    (h : findRoom s.rooms id = some r)
    (h' : findRoom (applyOp s op).rooms id = some r') :
    statusOrder r.status ≤ statusOrder r'.status := by
  have hinv := reachable_storeInv s hreach
  cases op with
  | register u => rw [status_eq_of_findRoom_eq h h']
  | create userId q pw newId now =>
      exact statusOrder_mono_create s userId q pw newId now id r r' h h'
  | join userId roomId pw =>
      exact statusOrder_mono_join s userId roomId pw id r r' h h'
  | send userId roomId text sid gw now =>
      exact statusOrder_mono_send s userId roomId text sid gw now id r r' h h'
  | submit userId roomId text now =>
      exact statusOrder_mono_submit s userId roomId text now hinv id r r' h h'
  | compare roomId gw =>
      exact statusOrder_mono_compare s roomId gw id r r' h h'
  | getStatus userId roomId => rw [status_eq_of_findRoom_eq h h']

/-- Witness for C5: along the reachable scenario (create, join, two
submissions, then comparison) the room's status steps forward from
`comparing` to `completed`. -/
theorem status_monotone_witness :
    statusOrder (⟨"r1", bcryptHash "pw1234", "Is X good?", 0,
      [⟨"uA", "Alice", true⟩, ⟨"uB", "Bob", true⟩],
      [⟨"uA", "X is good because...", 5⟩, ⟨"uB", "X is bad because...", 6⟩],
      none, none, RoomStatus.comparing⟩ : Room).status ≤
    statusOrder (⟨"r1", bcryptHash "pw1234", "Is X good?", 0,
      [⟨"uA", "Alice", true⟩, ⟨"uB", "Bob", true⟩],
      [⟨"uA", "X is good because...", 5⟩, ⟨"uB", "X is bad because...", 6⟩],
      none, some "the verdict", RoomStatus.completed⟩ : Room).status := by
  have h0 : Reachable store0 := Reachable.init sampleUsers
  have h1 : Reachable store1 :=
    Reachable.step store0 (Op.create "uA" "Is X good?" "pw1234" "r1" 0) h0
  have h2 : Reachable store2 :=
    Reachable.step store1 (Op.join "uB" "r1" "pw1234") h1
  have h3 : Reachable store3 :=
    Reachable.step store2 (Op.submit "uA" "r1" "X is good because..." 5) h2
  have h4 : Reachable store4 :=
    Reachable.step store3 (Op.submit "uB" "r1" "X is bad because..." 6) h3
  exact status_monotone store4 h4 (Op.compare "r1" (some "the verdict")) "r1" _ _
    (by decide) (by decide)

end BlindJudge
